import Mathlib

/-!
Shallow embedding of the zenapi single-page UI (three source files:
the root `App` component with `normalizePath`, the `ModelsView` model
catalog, and `MonitoringView`), together with theorems settling the
frozen claims about it.

JS conventions carried over: a nullable string is `Option String`, and
JS truthiness of such a value (`null` and `""` are falsy) is `truthy`.
-/

namespace ZenApi

/-- JS truthiness of a nullable string: `null` and the empty string are
falsy, every other string is truthy. -/
def truthy : Option String → Bool
  | none => false
  | some s => s != ""

/-- JS `s.startsWith(pre)`, computed on the character lists. -/
def jsStartsWith (s pre : String) : Bool :=
  pre.data.isPrefixOf s.data

/-! ## Path normalization (root file, `normalizePath`)

```js
const normalizePath = (path) => {
  if (path.length <= 1) return "/";
  return path.replace(/\/+$/, "") || "/";
};
```
-/

/-- JS `path.replace(/\/+$/, "")` on the character list: remove every
trailing `'/'`. -/
def stripTrailing (l : List Char) : List Char :=
  (l.reverse.dropWhile (fun c => c = '/')).reverse

/-- The function `normalizePath` from the root file: strings of length at most one
collapse to `"/"`; otherwise trailing slashes are stripped, and the JS
`|| "/"` turns an empty (falsy) result back into `"/"`. -/
def normalizePath (path : String) : String :=
  if path.length ≤ 1 then "/"
  else if String.mk (stripTrailing path.data) = "" then "/"
  else String.mk (stripTrailing path.data)

/-! ## Root view-state machine (the `App` component)

State read during one render pass and the four render outcomes the
component can return.  `View.blank` is never produced by the code; it
names the "deferred / blank root" render that the spec predicts for an
unknown site mode, so that the prediction can be compared with what the
code returns. -/

/-- Modelled from the spec: the fetched user profile record (the type
lives in `core/types`, which is not part of the sources); the spec says
it "holds at minimum an identifier". The render pass only tests its
presence. -/
structure User where
  id : String
deriving DecidableEq

/-- The state the `App` component reads during one render pass. -/
structure AppState where
  path : String
  adminToken : Option String
  userToken : Option String
  userRecord : Option User
  siteMode : Option String
deriving DecidableEq

/-- The possible render outcomes of the `App` component.  `blank` is the
spec's predicted "render nothing" outcome; the code itself only ever
returns one of the other four. -/
inductive View where
  | adminLogin
  | adminApp
  | userApp
  | publicApp
  | blank
deriving DecidableEq

/-- One render pass of the `App` component: the homepage-redirect block,
the personal-mode redirect block, then the route selection.  `setPath`
calls queue during the pass and the last one wins while every decision
still reads the local `path` variable, so the result is the pair
(final pending path, rendered view). -/
def renderApp (s : AppState) : String × View :=
  let p := s.path
  -- Homepage redirect logic
  let pending0 : Option String :=
    if p = "/" ∧ s.siteMode.isSome then
      if s.siteMode = some "personal" then some "/admin"
      else if truthy s.userToken ∧ s.userRecord.isSome then some "/user"
      else some "/login"
    else none
  -- Personal mode: redirect all non-admin paths to admin
  let pending1 : Option String :=
    if s.siteMode = some "personal" ∧ ¬ jsStartsWith p "/admin" then some "/admin"
    else pending0
  -- Admin routes
  if jsStartsWith p "/admin" then
    if truthy s.adminToken then (pending1.getD p, View.adminApp)
    else (pending1.getD p, View.adminLogin)
  -- User routes
  else if jsStartsWith p "/user" then
    if ¬ truthy s.userToken ∨ s.userRecord = none then
      let pending2 : Option String := if p ≠ "/login" then some "/login" else pending1
      (pending2.getD p, View.publicApp)
    else (pending1.getD p, View.userApp)
  -- Public routes
  else (pending1.getD p, View.publicApp)

/-- The path a render pass leaves behind (the last queued `setPath`, or
the unchanged path when none was queued). -/
def pathAfter (s : AppState) : String :=
  (renderApp s).1

/-- The state at the start of the next render pass: same tokens and site
mode, path as left by the previous pass. -/
def stepPath (s : AppState) : AppState :=
  { s with path := pathAfter s }

/-! ## Session store (root file: `updateUserToken`, `handleUserLogout`,
and the user-record effect) -/

/-- The durable key-value browser storage slots the root file touches. -/
structure Storage where
  admin_token : Option String
  user_token : Option String
deriving DecidableEq

/-- Session-related state: the storage, the two in-memory tokens, the
cached user record, and the current path. -/
structure Session where
  storage : Storage
  adminToken : Option String
  userToken : Option String
  userRecord : Option User
  path : String
deriving DecidableEq

/-- The callback `updateUserToken` from the root file: always sets the in-memory
token; a truthy value is written through to storage, a falsy one removes
the storage key and clears the cached user record. -/
def updateUserToken (next : Option String) (s : Session) : Session :=
  if truthy next then
    { s with userToken := next,
             storage := { s.storage with user_token := next } }
  else
    { s with userToken := next,
             storage := { s.storage with user_token := none },
             userRecord := none }

/-- The callback `navigateTo`: push a history entry and set the normalized path. -/
def navigateTo (target : String) (s : Session) : Session :=
  { s with path := normalizePath target }

/-- The callback `handleUserLogout`: clear the user token, then navigate to
`"/login"`. -/
def handleUserLogout (s : Session) : Session :=
  navigateTo "/login" (updateUserToken none s)

/-- The user-record effect from the root file, at its decision point:
with a falsy token it clears the cached record and returns without a
request; otherwise it starts the profile fetch (the Bool reports whether
a fetch was issued). -/
def profileCheck (s : Session) : Session × Bool :=
  if truthy s.userToken = false then ({ s with userRecord := none }, false)
  else (s, true)

/-! ## Monitoring view (`MonitoringView.tsx`) -/

/-- The function `rateColor`: color class for a success rate (`null` when a channel
has no data). -/
def rateColor : Option ℚ → String
  | none => "text-stone-400"
  | some r =>
      if r ≥ 99 then "text-green-600"
      else if r ≥ 95 then "text-yellow-600"
      else "text-red-600"

/-- The outcome of the awaited parts of `fetchData`: the fetch throwing
(network failure), or a response with its `ok` flag, its status code, and
the parsed body (`none` when `res.json()` throws). -/
inductive FetchOutcome (α : Type) where
  | networkError : FetchOutcome α
  | response (ok : Bool) (status : ℕ) (body : Option α) : FetchOutcome α

/-- An outcome on which `fetchData`'s try-block throws: network error,
non-ok status, or a body that fails to parse. -/
def isFailure {α : Type} : FetchOutcome α → Bool
  | .networkError => true
  | .response ok _ body => !ok || body.isNone

/-- The observable effect of `fetchData` on the displayed monitoring data:
given the outcome and the previously displayed data, the data afterwards
and whether `onLoaded` was invoked.  Every throw inside the try-block is
caught and swallowed. -/
def fetchData {α : Type} : FetchOutcome α → Option α → Option α × Bool
  | .networkError, prior => (prior, false)
  | .response ok _ body, prior =>
      if ok then
        match body with
        | some d => (some d, true)
        | none => (prior, false)
      else (prior, false)

/-! ## Model catalog formatters (`ModelsView` file) -/

/-- JS `x.toFixed(d)` for a nonnegative rational and `d ≥ 1`: the digit
string of `x` rounded to `d` decimal places (round half up), with the
fractional part zero-padded to exactly `d` digits. -/
def jsToFixed (q : ℚ) (d : ℕ) : String :=
  let m : ℕ := (2 * q.num.toNat * 10 ^ d + q.den) / (2 * q.den)
  let fs : String := toString (m % 10 ^ d)
  toString (m / 10 ^ d) ++ "." ++
    String.mk (List.replicate (d - fs.length) '0') ++ fs

/-- The function `formatNumber`: counts abbreviate at the million and thousand
thresholds with one decimal place, below that they print verbatim. -/
def formatNumber (n : ℕ) : String :=
  if n ≥ 1000000 then jsToFixed ((n : ℚ) / 1000000) 1 ++ "M"
  else if n ≥ 1000 then jsToFixed ((n : ℚ) / 1000) 1 ++ "K"
  else toString n

/-- The function `formatCost`: a literal zero renders as `"$0"`, amounts below one
cent (`0.01`, written `mkRat 1 100`) get four decimal places, all others
two. -/
def formatCost (q : ℚ) : String :=
  if q = 0 then "$0"
  else if q < mkRat 1 100 then "$" ++ jsToFixed q 4
  else "$" ++ jsToFixed q 2

/-! ## Sparkline (`MiniSparkline` in the `ModelsView` file) -/

/-- One entry of a model's daily series. -/
structure DailyPoint where
  day : String
  requests : ℕ
  tokens : ℕ
deriving DecidableEq

/-- JS `Math.max(...values, 1)`: the guarded value scale. -/
def sparkMax (values : List ℕ) : ℕ := values.foldr max 1

/-- JS `Math.max(values.length - 1, 1)`: the guarded horizontal divisor. -/
def sparkDen (values : List ℕ) : ℕ := max (values.length - 1) 1

/-- The source line `const step = (width - padding * 2) / Math.max(values.length - 1, 1)`
with `width = 120`, `padding = 2`. -/
def sparkStep (values : List ℕ) : ℚ :=
  (120 - 2 * 2 : ℚ) / (sparkDen values : ℚ)

/-- The x-coordinate of point `i`: `padding + i * step`. -/
def sparkX (values : List ℕ) (i : ℕ) : ℚ :=
  2 + (i : ℚ) * sparkStep values

/-- The y-coordinate of value `v`:
`height - padding - (v / max) * (height - padding * 2)` with
`height = 32`, `padding = 2`. -/
def sparkY (values : List ℕ) (v : ℕ) : ℚ :=
  32 - 2 - ((v : ℚ) / (sparkMax values : ℚ)) * (32 - 2 * 2)

/-- The polyline points of `MiniSparkline`; `none` when the data list is empty
(the component returns `null` and renders nothing). -/
def sparkPoints (data : List DailyPoint) : Option (List (ℚ × ℚ)) :=
  if data = [] then none
  else some ((data.map DailyPoint.requests).mapIdx
    (fun i v => (sparkX (data.map DailyPoint.requests) i,
                 sparkY (data.map DailyPoint.requests) v)))

/-! ## Model catalog search and pagination (`ModelsView`) -/

/-- JS `s.toLowerCase()`, character by character. -/
def jsToLower (s : String) : String := String.mk (s.data.map Char.toLower)

/-- JS `hay.includes(needle)`: substring containment. -/
def strIncludes (hay needle : String) : Bool :=
  decide (needle.data <:+: hay.data)

/-- The local state of `ModelsView`: the `models` prop (by identifier)
and the three `useState` hooks. -/
structure ModelsState where
  models : List String
  search : String
  pageSize : ℕ
  page : ℕ
deriving DecidableEq

/-- The filtered list: a truthy (nonempty) search keeps the models whose
lowercased id contains the lowercased query, an empty search keeps
everything. -/
def filteredModels (st : ModelsState) : List String :=
  if st.search = "" then st.models
  else st.models.filter
    (fun mid => strIncludes (jsToLower mid) (jsToLower st.search))

/-- JS `Math.ceil(a / b)` on naturals. -/
def ceilDiv (a b : ℕ) : ℕ := (a + b - 1) / b

/-- The source line `totalPages = Math.max(1, Math.ceil(total / pageSize))`. -/
def totalPages (st : ModelsState) : ℕ :=
  max 1 (ceilDiv (filteredModels st).length st.pageSize)

/-- The events that can change `ModelsView`'s state: a new `models`
prop, the search input, the page-size selector, and the two pager
buttons. -/
inductive MEvent where
  | setModels (l : List String)
  | setSearch (q : String)
  | setPageSize (n : ℕ)
  | prevPage
  | nextPage

/-- The immediate state update of an event, before effects run. -/
def applyEvent (st : ModelsState) : MEvent → ModelsState
  | .setModels l => { st with models := l }
  | .setSearch q => { st with search := q }
  | .setPageSize n => { st with pageSize := n }
  | .prevPage => { st with page := max 1 (st.page - 1) }
  | .nextPage => { st with page := min (totalPages st) (st.page + 1) }

/-- The second effect: when `totalPages` changed since the previous
render, re-clamp the page with `setPage(prev => Math.min(prev,
totalPages))`. -/
def runClamp (old new1 : ModelsState) : ModelsState :=
  if totalPages new1 ≠ totalPages old then
    { new1 with page := min new1.page (totalPages new1) }
  else new1

/-- Both effects after a render caused by an event: reset the page to 1
when the search or the page size changed, then re-clamp when the page
count changed. -/
def runEffects (old new : ModelsState) : ModelsState :=
  runClamp old
    (if new.search ≠ old.search ∨ new.pageSize ≠ old.pageSize then
      { new with page := 1 }
    else new)

/-- One event followed by the effects it triggers. -/
def step (st : ModelsState) (e : MEvent) : ModelsState :=
  runEffects st (applyEvent st e)

/-- The initial hook values: empty search, page size 12, page 1. -/
def initState (models : List String) : ModelsState :=
  ⟨models, "", 12, 1⟩

/-- The pagination invariant of the claim: the page stays within
`[1, totalPages]`. -/
def pageInv (st : ModelsState) : Prop :=
  1 ≤ st.page ∧ st.page ≤ totalPages st

end ZenApi

namespace ZenApi

/-- If the current path is in the `/admin` subtree, the render pass queues
no path change at all: both redirect blocks are skipped and the admin
branch returns directly. -/
lemma pathAfter_of_admin (s : AppState)
    (h : jsStartsWith s.path "/admin" = true) : pathAfter s = s.path := by
  have hp : s.path ≠ "/" := by
    intro e
    rw [e] at h
    exact absurd h (by decide)
  unfold pathAfter renderApp
  cases htok : truthy s.adminToken <;> simp [h, hp, htok]

/-- In personal mode, at a path outside `/admin`, one render pass ends at
`/login` exactly when the path is in the `/user` subtree without an
authenticated user, and at `/admin` otherwise. -/
lemma pathAfter_personal_nonadmin (s : AppState)
    (h : s.siteMode = some "personal")
    (hadm : jsStartsWith s.path "/admin" = false) :
    pathAfter s =
      if jsStartsWith s.path "/user" = true ∧
          (truthy s.userToken = false ∨ s.userRecord = none) then "/login"
      else "/admin" := by
  have huser_ne : jsStartsWith s.path "/user" = true → s.path ≠ "/login" := by
    intro hu e
    rw [e] at hu
    exact absurd hu (by decide)
  unfold pathAfter renderApp
  by_cases hu : jsStartsWith s.path "/user" = true
  · by_cases hauth : truthy s.userToken = false ∨ s.userRecord = none
    · simp [h, hadm, hu, hauth, huser_ne hu]
    · push_neg at hauth
      simp [h, hadm, hu, hauth.1, hauth.2]
  · simp [h, hadm, hu]

/-- Applying `List.dropWhile` twice is the same as applying it once. -/
lemma dropWhile_dropWhile (q : Char → Bool) (l : List Char) :
    (l.dropWhile q).dropWhile q = l.dropWhile q := by
  induction l with
  | nil => rfl
  | cons a l ih =>
    by_cases h : q a = true
    · simp [List.dropWhile_cons, h, ih]
    · simp [List.dropWhile_cons, h]

/-- The head of a nonempty `dropWhile` result fails the predicate. -/
lemma dropWhile_head_false (q : Char → Bool) (l : List Char) (a : Char)
    (t : List Char) (h : l.dropWhile q = a :: t) : q a = false := by
  induction l with
  | nil => simp at h
  | cons b l ih =>
    rw [List.dropWhile_cons] at h
    by_cases hb : q b = true
    · rw [if_pos hb] at h
      exact ih h
    · rw [if_neg hb] at h
      injection h with h1 _
      subst h1
      simpa using hb

/-- Stripping trailing slashes twice is the same as stripping once. -/
lemma stripTrailing_idem (l : List Char) :
    stripTrailing (stripTrailing l) = stripTrailing l := by
  unfold stripTrailing
  rw [List.reverse_reverse, dropWhile_dropWhile]

/-- The stripped list is an initial segment of the original. -/
lemma stripTrailing_pref (l : List Char) : stripTrailing l <+: l := by
  have h : (stripTrailing l).reverse <:+ l.reverse := by
    unfold stripTrailing
    rw [List.reverse_reverse]
    exact List.dropWhile_suffix _
  exact List.reverse_suffix.mp h

/-- An initial segment that is nonempty shares the original head. -/
lemma head?_of_pref {l₁ l₂ : List Char} (h : l₁ <+: l₂) (hne : l₁ ≠ []) :
    l₂.head? = l₁.head? := by
  obtain ⟨t, rfl⟩ := h
  cases l₁ with
  | nil => exact absurd rfl hne
  | cons a l => rfl

/-- The page count `totalPages` is at least 1 in every state. -/
lemma totalPages_pos (st : ModelsState) : 1 ≤ totalPages st :=
  le_max_left 1 _

/-- The clamp effect restores the pagination invariant whenever the page
is positive and, if the page count did not change, already in range. -/
lemma runClamp_inv (old new1 : ModelsState) (h1 : 1 ≤ new1.page)
    (h2 : totalPages new1 = totalPages old → new1.page ≤ totalPages old) :
    pageInv (runClamp old new1) := by
  unfold pageInv runClamp
  by_cases hc : totalPages new1 ≠ totalPages old
  · rw [if_pos hc]
    exact ⟨le_min h1 (totalPages_pos new1), min_le_right _ _⟩
  · rw [if_neg hc]
    push_neg at hc
    exact ⟨h1, by rw [hc]; exact h2 hc⟩

/-- Both effects together restore the pagination invariant. -/
lemma runEffects_inv (old new : ModelsState) (h1 : 1 ≤ new.page)
    (h2 : new.page ≤ totalPages old) : pageInv (runEffects old new) := by
  unfold runEffects
  by_cases hc : new.search ≠ old.search ∨ new.pageSize ≠ old.pageSize
  · rw [if_pos hc]
    exact runClamp_inv old _ le_rfl (fun _ => totalPages_pos old)
  · rw [if_neg hc]
    exact runClamp_inv old new h1 (fun _ => h2)

/-- Every `ModelsView` event preserves the pagination invariant. -/
lemma pageInv_step (st : ModelsState) (e : MEvent) (h : pageInv st) :
    pageInv (step st e) := by
  obtain ⟨h1, h2⟩ := h
  cases e with
  | setModels l => exact runEffects_inv st _ h1 h2
  | setSearch q => exact runEffects_inv st _ h1 h2
  | setPageSize n => exact runEffects_inv st _ h1 h2
  | prevPage =>
    exact runEffects_inv st _ (le_max_left 1 _)
      (max_le (totalPages_pos st) (le_trans (Nat.sub_le st.page 1) h2))
  | nextPage =>
    exact runEffects_inv st _ (le_min (totalPages_pos st) (by omega))
      (min_le_left _ _)

/-- The pagination invariant is preserved along any event sequence. -/
lemma pageInv_foldl (events : List MEvent) :
    ∀ st : ModelsState, pageInv st → pageInv (events.foldl step st) := by
  induction events with
  | nil => exact fun _ h => h
  | cons e es ih => exact fun st h => ih (step st e) (pageInv_step st e h)

/-- The guarded maximum of the sparkline is at least 1. -/
lemma one_le_sparkMax (values : List ℕ) : 1 ≤ sparkMax values := by
  induction values with
  | nil => exact le_refl 1
  | cons a l ih =>
    show 1 ≤ max a (sparkMax l)
    exact le_trans ih (le_max_right a _)

/-- Every value is bounded by the guarded maximum. -/
lemma le_sparkMax (values : List ℕ) (v : ℕ) (hv : v ∈ values) :
    v ≤ sparkMax values := by
  induction values with
  | nil => cases hv
  | cons a l ih =>
    rcases List.mem_cons.mp hv with rfl | h
    · show v ≤ max v (sparkMax l)
      exact le_max_left _ _
    · show v ≤ max a (sparkMax l)
      exact le_trans (ih h) (le_max_right _ _)

/-- The guarded maximum is either the guard 1 or one of the values. -/
lemma sparkMax_cases (values : List ℕ) :
    sparkMax values = 1 ∨ sparkMax values ∈ values := by
  induction values with
  | nil => exact Or.inl rfl
  | cons a l ih =>
    rcases max_choice a (sparkMax l) with he | he
    · right
      show max a (sparkMax l) ∈ a :: l
      rw [he]
      exact List.mem_cons_self a l
    · rcases ih with h1 | h1
      · left
        show max a (sparkMax l) = 1
        rw [he, h1]
      · right
        show max a (sparkMax l) ∈ a :: l
        rw [he]
        exact List.mem_cons_of_mem a h1

/-- When some value is positive, the guarded maximum is attained. -/
lemma sparkMax_attained (values : List ℕ) (h : ∃ v ∈ values, 1 ≤ v) :
    sparkMax values ∈ values := by
  rcases sparkMax_cases values with h1 | h1
  · obtain ⟨v, hv, hv1⟩ := h
    have hle := le_sparkMax values v hv
    rw [h1] at hle ⊢
    have : v = 1 := le_antisymm hle hv1
    exact this ▸ hv
  · exact h1

/-- The y-coordinate of the guarded maximum is the top edge `padding`. -/
lemma sparkY_max (values : List ℕ) :
    sparkY values (sparkMax values) = 2 := by
  unfold sparkY
  have hm : ((sparkMax values : ℕ) : ℚ) ≠ 0 := by
    have h1 := one_le_sparkMax values
    exact_mod_cast (by omega : (sparkMax values : ℕ) ≠ 0)
  rw [div_self hm]
  norm_num

/-- Every value of the list is drawn at or below the top edge. -/
lemma sparkY_ge (values : List ℕ) (v : ℕ) (hv : v ∈ values) :
    2 ≤ sparkY values v := by
  unfold sparkY
  have hm0 : (0 : ℚ) < ((sparkMax values : ℕ) : ℚ) := by
    have h1 := one_le_sparkMax values
    exact_mod_cast (by omega : 0 < sparkMax values)
  have hle : ((v : ℚ) / ((sparkMax values : ℕ) : ℚ)) ≤ 1 := by
    rw [div_le_one hm0]
    exact_mod_cast le_sparkMax values v hv
  have hge : (0 : ℚ) ≤ ((v : ℚ) / ((sparkMax values : ℕ) : ℚ)) :=
    div_nonneg (by positivity) (le_of_lt hm0)
  nlinarith

/-- The value zero is drawn on the bottom edge `height - padding`. -/
lemma sparkY_zero (values : List ℕ) : sparkY values 0 = 30 := by
  unfold sparkY
  norm_num

/-- The second coordinates of the sparkline points are exactly the
y-coordinates of the values. -/
lemma sparkPoints_snd (data : List DailyPoint) (hne : data ≠ []) :
    ((sparkPoints data).getD []).map Prod.snd =
      (data.map DailyPoint.requests).map
        (sparkY (data.map DailyPoint.requests)) := by
  rw [sparkPoints, if_neg hne, Option.getD_some]
  rw [List.mapIdx_eq_enum_map, List.map_map]
  have hcomp : (Prod.snd ∘ Function.uncurry fun i v =>
      (sparkX (data.map DailyPoint.requests) i,
        sparkY (data.map DailyPoint.requests) v)) =
      (sparkY (data.map DailyPoint.requests)) ∘ Prod.snd := rfl
  rw [hcomp, ← List.map_map, List.enum_map_snd]

end ZenApi

namespace ZenApi

/-- Scratch check: root path, personal mode. -/
example :
    pathAfter ⟨"/", none, none, none, some "personal"⟩ = "/admin" := by decide

example :
    pathAfter ⟨"/", none, some "t", some ⟨"u"⟩, some "multi"⟩ = "/user" := by decide

example :
    pathAfter ⟨"/", none, none, none, some "multi"⟩ = "/login" := by decide

example :
    pathAfter ⟨"/user", none, none, none, some "personal"⟩ = "/login" := by decide

example : normalizePath "a/" = "a" := by decide

example : normalizePath "a" = "/" := by decide

/-- C1: the root-path redirect is a deterministic function of the render
inputs: at path `"/"` with site mode `"personal"` the pass ends at
`"/admin"`; with a non-personal site mode and both user token and user
record present it ends at `"/user"`; with a non-personal site mode and no
user token it ends at `"/login"`. -/
theorem rootRedirect_deterministic (a u : Option String) (r : Option User)
    (m : String) (hm : m ≠ "personal") :
    pathAfter ⟨"/", a, u, r, some "personal"⟩ = "/admin" ∧
    (truthy u = true → r.isSome = true →
      pathAfter ⟨"/", a, u, r, some m⟩ = "/user") ∧
    pathAfter ⟨"/", a, none, r, some m⟩ = "/login" := by
  have e1 : jsStartsWith "/" "/admin" = false := by decide
  have e2 : jsStartsWith "/" "/user" = false := by decide
  refine ⟨?_, fun hu hr => ?_, ?_⟩
  · simp [pathAfter, renderApp, e1, e2]
  · simp [pathAfter, renderApp, e1, e2, hm, hu, hr]
  · simp [pathAfter, renderApp, e1, e2, hm, truthy]

/-- Witness for C1 at concrete inputs. -/
theorem rootRedirect_deterministic_witness :
    pathAfter ⟨"/", none, some "t", some ⟨"u1"⟩, some "multi"⟩ = "/user" ∧
    pathAfter ⟨"/", none, none, none, some "multi"⟩ = "/login" ∧
    pathAfter ⟨"/", none, none, none, some "personal"⟩ = "/admin" :=
  ⟨(rootRedirect_deterministic none (some "t") (some ⟨"u1"⟩) "multi"
      (by decide)).2.1 (by decide) (by decide),
    (rootRedirect_deterministic none none none "multi" (by decide)).2.2,
    (rootRedirect_deterministic none none none "multi" (by decide)).1⟩

/-- C2 counterexample: in personal mode at path `"/user"` with no user
token, a single render pass ends at `"/login"`, not `"/admin"`: the
user-route guard runs after the personal-mode redirect and overwrites the
pending path. -/
theorem personal_redirect_single_pass_cex :
    pathAfter ⟨"/user", none, none, none, some "personal"⟩ = "/login" ∧
    ("/login" : String) ≠ "/admin" := by decide

/-- C2 as amended: in personal mode a path already in the `/admin`
subtree is left unchanged; any other path is sent by one render pass to
`"/admin"` or (for an unauthenticated `/user` path) to `"/login"`, and
after the following pass the path is `"/admin"`, so `/admin` is the only
stable subtree in personal mode. -/
theorem personal_mode_admin_only (s : AppState)
    (h : s.siteMode = some "personal") :
    (jsStartsWith s.path "/admin" = true → pathAfter s = s.path) ∧
    (jsStartsWith s.path "/admin" = false →
      (pathAfter s = "/admin" ∨ pathAfter s = "/login") ∧
      pathAfter (stepPath s) = "/admin") := by
  obtain ⟨p, a, u, r, m⟩ := s
  replace h : m = some "personal" := h
  subst h
  constructor
  · exact fun hadm => pathAfter_of_admin _ hadm
  · intro hadm
    have h1 := pathAfter_personal_nonadmin ⟨p, a, u, r, some "personal"⟩ rfl hadm
    by_cases hc : jsStartsWith p "/user" = true ∧
        (truthy u = false ∨ r = none)
    · rw [if_pos hc] at h1
      refine ⟨Or.inr h1, ?_⟩
      have h2 : stepPath ⟨p, a, u, r, some "personal"⟩ =
          ⟨"/login", a, u, r, some "personal"⟩ := by
        simp [stepPath, h1]
      rw [h2]
      have ej : jsStartsWith "/login" "/admin" = false := by decide
      have ej2 : jsStartsWith "/login" "/user" = false := by decide
      have hx := pathAfter_personal_nonadmin
        ⟨"/login", a, u, r, some "personal"⟩ rfl ej
      dsimp only at hx
      rw [if_neg (fun hcc => absurd hcc.1 (by rw [ej2]; exact Bool.false_ne_true))] at hx
      exact hx
    · rw [if_neg hc] at h1
      refine ⟨Or.inl h1, ?_⟩
      have h2 : stepPath ⟨p, a, u, r, some "personal"⟩ =
          ⟨"/admin", a, u, r, some "personal"⟩ := by
        simp [stepPath, h1]
      rw [h2]
      have ea : jsStartsWith "/admin" "/admin" = true := by decide
      exact pathAfter_of_admin _ ea

/-- Witness for C2 as amended, at a concrete state. -/
theorem personal_mode_admin_only_witness :
    pathAfter (stepPath ⟨"/user", none, none, none, some "personal"⟩) =
      "/admin" :=
  ((personal_mode_admin_only ⟨"/user", none, none, none, some "personal"⟩
      rfl).2 (by decide)).2

/-- C3 counterexample: with site mode still unknown the root render is
not blank — at path `"/"` it renders the public view, and at `"/admin"`
with an admin token it even renders the admin console. -/
theorem siteMode_unknown_render_cex :
    (renderApp ⟨"/", none, none, none, none⟩ = ("/", View.publicApp) ∧
      View.publicApp ≠ View.blank) ∧
    renderApp ⟨"/admin", some "secret", none, none, none⟩ =
      ("/admin", View.adminApp) := by decide

/-- C3 as amended: while the site mode is unknown only the redirects are
deferred — at the root path the pass changes no path and renders the
public (login/register) view, for every combination of tokens. -/
theorem siteMode_unknown_root_render (a u : Option String) (r : Option User) :
    renderApp ⟨"/", a, u, r, none⟩ = ("/", View.publicApp) := by
  have e1 : jsStartsWith "/" "/admin" = false := by decide
  have e2 : jsStartsWith "/" "/user" = false := by decide
  simp [renderApp, e1, e2]

/-- C4 counterexample: path normalization is not idempotent on arbitrary
strings — `normalizePath "a/"` is `"a"`, but normalizing again collapses
the length-one string `"a"` to `"/"`. -/
theorem normalizePath_idem_cex :
    normalizePath (normalizePath "a/") ≠ normalizePath "a/" := by decide

/-- C4 as amended: path normalization is idempotent on every string that
begins with `'/'` (as every browser pathname does) or has length at most
one, and the concrete equalities of the claim hold:
`normalizePath "" = normalizePath "/" = "/"`,
`normalizePath "/admin/" = "/admin"`, `normalizePath "//" = "/"`. -/
theorem normalizePath_idem (p : String)
    (h : p.data.head? = some '/' ∨ p.length ≤ 1) :
    normalizePath (normalizePath p) = normalizePath p ∧
    normalizePath "" = "/" ∧ normalizePath "/" = "/" ∧
    normalizePath "/admin/" = "/admin" ∧ normalizePath "//" = "/" := by
  refine ⟨?_, by decide, by decide, by decide, by decide⟩
  by_cases hl : p.length ≤ 1
  · have e : normalizePath p = "/" := by rw [normalizePath, if_pos hl]
    rw [e]
    decide
  · have hd : p.data.head? = some '/' := h.resolve_right hl
    by_cases ht : String.mk (stripTrailing p.data) = ""
    · have e : normalizePath p = "/" := by
        rw [normalizePath, if_neg hl, if_pos ht]
      rw [e]
      decide
    · have e : normalizePath p = String.mk (stripTrailing p.data) := by
        rw [normalizePath, if_neg hl, if_neg ht]
      rw [e]
      have htne : stripTrailing p.data ≠ [] := by
        intro hnil
        exact ht (by rw [hnil])
      -- the stripped list still begins with the original head '/'
      have hhead : (stripTrailing p.data).head? = some '/' := by
        rw [← head?_of_pref (stripTrailing_pref p.data) htne]
        exact hd
      -- the reversed stripped list is a dropWhile result
      have hrev : (stripTrailing p.data).reverse =
          p.data.reverse.dropWhile (fun c => c = '/') := by
        unfold stripTrailing
        rw [List.reverse_reverse]
      obtain ⟨c, d', hcd⟩ : ∃ c d',
          (stripTrailing p.data).reverse = c :: d' := by
        rcases hr : (stripTrailing p.data).reverse with _ | ⟨c, d'⟩
        · exact absurd (List.reverse_eq_nil_iff.mp hr) htne
        · exact ⟨c, d', rfl⟩
      have hcfalse : (decide (c = '/') : Bool) = false := by
        have := dropWhile_head_false (fun c => c = '/') p.data.reverse c d'
          (by rw [← hrev, hcd])
        simpa using this
      have hcne : c ≠ '/' := by simpa using hcfalse
      -- the stripped list has length at least two
      obtain ⟨t', hth⟩ : ∃ t', stripTrailing p.data = '/' :: t' := by
        rcases hs : stripTrailing p.data with _ | ⟨x, t'⟩
        · exact absurd hs htne
        · rw [hs] at hhead
          simp only [List.head?_cons, Option.some.injEq] at hhead
          exact ⟨t', by rw [hhead]⟩
      have ht'ne : t' ≠ [] := by
        intro hnil
        rw [hnil] at hth
        rw [hth] at hcd
        simp only [List.reverse_cons, List.reverse_nil, List.nil_append,
          List.cons.injEq] at hcd
        exact hcne (hcd.1.symm ▸ rfl)
      have hlen2 : 2 ≤ (stripTrailing p.data).length := by
        rw [hth]
        cases t' with
        | nil => exact absurd rfl ht'ne
        | cons y ys => simp [List.length_cons]
      -- stripping the stripped list changes nothing
      have hfix : stripTrailing (stripTrailing p.data) = stripTrailing p.data :=
        stripTrailing_idem p.data
      have hmklen : (String.mk (stripTrailing p.data)).length =
          (stripTrailing p.data).length := rfl
      rw [normalizePath]
      rw [if_neg (by rw [hmklen]; omega)]
      have hdata : (String.mk (stripTrailing p.data)).data =
          stripTrailing p.data := rfl
      rw [hdata, hfix, if_neg ht]

/-- Witness for C4 as amended, at the concrete input `"/admin/"`. -/
theorem normalizePath_idem_witness :
    normalizePath (normalizePath "/admin/") = normalizePath "/admin/" :=
  (normalizePath_idem "/admin/" (by decide)).1

/-- C5: starting from the initial `ModelsView` state, after any sequence
of events (new models prop, search input, page-size change, pager
buttons) the current page stays in `[1, totalPages]`; in particular,
filtering to zero results and back never leaves `page > totalPages`. -/
theorem pagination_clamped (models : List String) (events : List MEvent) :
    pageInv (events.foldl step (initState models)) :=
  pageInv_foldl events (initState models) ⟨le_rfl, totalPages_pos _⟩

/-- C6: clearing the user token (logout) removes the stored token and the
cached user record; after `handleUserLogout` the token, the storage slot
and the record are all absent, the path is `"/login"`, and a subsequent
profile check issues no request and reflects the unauthenticated
state. -/
theorem logout_clears_session (s : Session) :
    (updateUserToken none s).userToken = none ∧
    (updateUserToken none s).storage.user_token = none ∧
    (updateUserToken none s).userRecord = none ∧
    (handleUserLogout s).userToken = none ∧
    (handleUserLogout s).storage.user_token = none ∧
    (handleUserLogout s).userRecord = none ∧
    (handleUserLogout s).path = "/login" ∧
    (profileCheck (handleUserLogout s)).2 = false ∧
    (profileCheck (handleUserLogout s)).1.userRecord = none := by
  obtain ⟨⟨sa, su⟩, a, u, r, p⟩ := s
  have hn : normalizePath "/login" = "/login" := by decide
  simp [updateUserToken, handleUserLogout, navigateTo, profileCheck,
    truthy, hn]

/-- C7: when the monitoring fetch fails — network error, non-ok status,
or a body that fails to parse — the failure is swallowed: the displayed
data is unchanged and `onLoaded` is not invoked. -/
theorem monitoring_failure_swallowed {α : Type} (o : FetchOutcome α)
    (prior : Option α) (h : isFailure o = true) :
    fetchData o prior = (prior, false) := by
  cases o with
  | networkError => rfl
  | response ok st body =>
    cases ok with
    | false => rfl
    | true =>
      cases body with
      | none => rfl
      | some d => simp [isFailure] at h

/-- Witness for C7 on a network error and on an HTTP 500 response. -/
theorem monitoring_failure_swallowed_witness :
    fetchData (FetchOutcome.networkError : FetchOutcome ℕ) (some 7) =
      (some 7, false) ∧
    fetchData (FetchOutcome.response false 500 (some 3) : FetchOutcome ℕ)
      (some 7) = (some 7, false) :=
  ⟨monitoring_failure_swallowed _ _ (by decide),
    monitoring_failure_swallowed _ _ (by decide)⟩

/-- C8: the rate color function maps a `null` rate to the neutral color,
rates at least 99 to the good color, rates in `[95, 99)` to the warning
color and rates below 95 to the critical color; concretely 99 is good,
95 is warning, 94.9 is critical. -/
theorem rateColor_thresholds (r : ℚ) :
    rateColor none = "text-stone-400" ∧
    (99 ≤ r → rateColor (some r) = "text-green-600") ∧
    (95 ≤ r → r < 99 → rateColor (some r) = "text-yellow-600") ∧
    (r < 95 → rateColor (some r) = "text-red-600") ∧
    rateColor (some 99) = "text-green-600" ∧
    rateColor (some 95) = "text-yellow-600" ∧
    rateColor (some (949 / 10)) = "text-red-600" := by
  refine ⟨rfl, fun h => ?_, fun h1 h2 => ?_, fun h => ?_, ?_, ?_, ?_⟩
  · rw [rateColor, if_pos h]
  · rw [rateColor, if_neg (not_le.mpr h2), if_pos h1]
  · rw [rateColor, if_neg (not_le.mpr (by linarith)),
      if_neg (not_le.mpr h)]
  · rw [rateColor, if_pos (by norm_num)]
  · rw [rateColor, if_neg (by norm_num), if_pos (by norm_num)]
  · rw [rateColor, if_neg (by norm_num), if_neg (by norm_num)]

/-- Witness for C8 at the rates 100, 96 and 50. -/
theorem rateColor_thresholds_witness :
    rateColor (some 100) = "text-green-600" ∧
    rateColor (some 96) = "text-yellow-600" ∧
    rateColor (some 50) = "text-red-600" :=
  ⟨(rateColor_thresholds 100).2.1 (by norm_num),
    (rateColor_thresholds 96).2.2.1 (by norm_num) (by norm_num),
    (rateColor_thresholds 50).2.2.2.1 (by norm_num)⟩

/-- C9: the concrete formatting facts: `formatNumber 1500 = "1.5K"`,
`formatCost 0 = "$0"`, `formatCost 0.005 = "$0.0050"`, and
`formatCost 1.2 = "$1.20"`. -/
theorem formatting_concrete :
    formatNumber 1500 = "1.5K" ∧ formatCost 0 = "$0" ∧
    formatCost 0.005 = "$0.0050" ∧ formatCost 1.2 = "$1.20" := by
  have h1 : ((1500 : ℕ) : ℚ) / 1000 = mkRat 3 2 := by
    rw [Rat.mkRat_eq_div]
    norm_num
  have h2 : (0.005 : ℚ) = mkRat 1 200 := by
    rw [Rat.mkRat_eq_div]
    norm_num
  have h3 : (1.2 : ℚ) = mkRat 6 5 := by
    rw [Rat.mkRat_eq_div]
    norm_num
  refine ⟨?_, ?_, ?_, ?_⟩
  · rw [formatNumber, if_neg (by norm_num), if_pos (by norm_num), h1]
    decide
  · rw [formatCost, if_pos rfl]
  · rw [h2, formatCost, if_neg (by decide), if_pos (by decide)]
    decide
  · rw [h3, formatCost, if_neg (by decide), if_neg (by decide)]
    decide

/-- C10: the sparkline computation never divides by zero: both guarded
denominators are at least 1; with no data points it renders nothing; an
all-zero value list degenerates to a flat line on the bottom edge; and
whenever some value is positive the points stay inside the chart with the
maximum value touching the top edge `y = padding`. -/
theorem sparkline_safe (data : List DailyPoint) (hne : data ≠ []) :
    sparkPoints [] = none ∧
    1 ≤ sparkMax (data.map DailyPoint.requests) ∧
    1 ≤ sparkDen (data.map DailyPoint.requests) ∧
    ((∀ v ∈ data.map DailyPoint.requests, v = 0) →
      ∀ pt ∈ (sparkPoints data).getD [], pt.2 = 30) ∧
    ((∃ v ∈ data.map DailyPoint.requests, 1 ≤ v) →
      (∃ pt ∈ (sparkPoints data).getD [], pt.2 = 2) ∧
      ∀ pt ∈ (sparkPoints data).getD [], 2 ≤ pt.2) := by
  refine ⟨rfl, one_le_sparkMax _, le_max_right _ _, ?_, ?_⟩
  · intro hz pt hpt
    have h2 : pt.2 ∈ ((sparkPoints data).getD []).map Prod.snd :=
      List.mem_map_of_mem Prod.snd hpt
    rw [sparkPoints_snd data hne] at h2
    obtain ⟨v, hv, he⟩ := List.mem_map.mp h2
    rw [← he, hz v hv]
    exact sparkY_zero _
  · intro hex
    constructor
    · have hmem := sparkMax_attained _ hex
      have hy : sparkY (data.map DailyPoint.requests)
          (sparkMax (data.map DailyPoint.requests)) ∈
          ((sparkPoints data).getD []).map Prod.snd := by
        rw [sparkPoints_snd data hne]
        exact List.mem_map_of_mem _ hmem
      obtain ⟨pt, hpt, he⟩ := List.mem_map.mp hy
      exact ⟨pt, hpt, by rw [he, sparkY_max]⟩
    · intro pt hpt
      have h2 : pt.2 ∈ ((sparkPoints data).getD []).map Prod.snd :=
        List.mem_map_of_mem Prod.snd hpt
      rw [sparkPoints_snd data hne] at h2
      obtain ⟨v, hv, he⟩ := List.mem_map.mp h2
      rw [← he]
      exact sparkY_ge _ v hv

/-- Witness for C10 on a two-point series with maximum 3, and on an
all-zero one-point series. -/
theorem sparkline_safe_witness :
    ((∃ pt ∈ (sparkPoints [⟨"d1", 0, 0⟩, ⟨"d2", 3, 1⟩]).getD [],
        pt.2 = 2) ∧
      ∀ pt ∈ (sparkPoints [⟨"d1", 0, 0⟩, ⟨"d2", 3, 1⟩]).getD [],
        2 ≤ pt.2) ∧
    ∀ pt ∈ (sparkPoints [⟨"d3", 0, 0⟩]).getD [], pt.2 = 30 :=
  ⟨(sparkline_safe [⟨"d1", 0, 0⟩, ⟨"d2", 3, 1⟩] (by decide)).2.2.2.2
      ⟨3, by decide, by decide⟩,
    (sparkline_safe [⟨"d3", 0, 0⟩] (by decide)).2.2.2.1 (by decide)⟩

end ZenApi
